import Mathlib

/-!
Shallow embedding of the `ServerLoader` lifecycle orchestrator from
`src/server/components/ServerLoader.ts` (ts-express-decorators).

The TypeScript class is stateful; we model its observable behaviour by
explicit state passing.  Mutating methods become functions
`LoaderState → LoaderState`; every externally visible side effect
(log lines, server-object creation, controller registration, middleware
registration) is appended to an event trace carried in the state.
External collaborators (the `glob` module and the success of
`ControllerService.require` for a given file) are supplied as an
environment `Env`.
-/

namespace ServerLoaderModel

/-- JavaScript-flavoured values as they occur in the `ServerSettingsService`
map consumed by `autoload`: primitive port values, the `mount` object
(endpoint → directory), the `componentsScan` array, and the `httpsOptions`
object (only its `port` field matters to the loader, because the dispatch of
`httpsPort` overrides `port` via `Object.assign(options, {port: value})`). -/
inductive SettingsValue where
  | num (n : Int)
  | str (s : String)
  | boolean (b : Bool)
  | null
  | undef
  | mountMap (entries : List (String × String))
  | scanList (patterns : List String)
  | optionsObj (port : Int)
  deriving Repr, DecidableEq

/-- JavaScript truthiness of a `SettingsValue`: numbers are falsy exactly at 0,
strings exactly when empty, `null`/`undefined` are falsy, objects and arrays
are always truthy. This is the guard `if (value)` in `autoload`. -/
def truthy : SettingsValue → Bool
  | .num n => n != 0
  | .str s => s != ""
  | .boolean b => b
  | .null => false
  | .undef => false
  | .mountMap _ => true
  | .scanList _ => true
  | .optionsObj _ => true

/-- Observable events emitted by the settings/scan part of the loader.
`logSettings` is the `$log.info("[TSED] settings.key =>", value)` line;
`scanStarted` is the `$log.info("[TSED] Scan files : " + path)` line that
begins a `scan`; `importFile` is the per-file `$log.debug` marking an import
attempt; `controllerRegistered` is a successful
`ControllerService.require(file).mapTo(endpoint)`; `importError` is the
per-file `$log.error(er)` in the catch; `httpServerCreated` /
`httpsServerCreated` record `Http.createServer` / `Https.createServer`
allocating a fresh server object (identified by a fresh id). -/
inductive Ev where
  | logInfo (msg : String)
  | logSettings (key : String) (value : SettingsValue)
  | scanStarted (path : String) (endpoint : String)
  | importFile (endpoint : String) (file : String)
  | controllerRegistered (file : String) (endpoint : String)
  | importError (file : String)
  | httpServerCreated (id : Nat)
  | httpsServerCreated (id : Nat)
  deriving Repr, DecidableEq

/-- The mutable fields of a `ServerLoader` instance relevant here:
`_httpServer` / `_httpsServer` hold the (optional) server objects, modelled
by the id they were allocated with; `httpPort` / `httpsPort` mirror the
`_settings.httpPort` / `_settings.httpsPort` assignments; `endpoint` is
`_settings.endpoint`, the default endpoint used by `scan`; `nextId` is the
allocator for fresh server objects; `trace` is the emitted event trace. -/
structure LoaderState where
  httpServer : Option Nat
  httpsServer : Option Nat
  httpPort : SettingsValue
  httpsPort : SettingsValue
  endpoint : String
  nextId : Nat
  trace : List Ev
  deriving Repr, DecidableEq

/-- Environment of external collaborators: `glob` resolves a pattern to the
matching files (the `require("glob").sync` call) and `importOk` tells
whether `ControllerService.require(file)` succeeds or throws. -/
structure Env where
  glob : String → List String
  importOk : String → Bool

/-- Append one event to the trace. -/
def emit (st : LoaderState) (e : Ev) : LoaderState :=
  { st with trace := st.trace ++ [e] }

/-- Method `createHttpServer(port)`: unconditionally allocates a fresh HTTP
server object (`Http.createServer`), stores it in `_httpServer` (overwriting
any previous one) and sets `_settings.httpPort = port`. There is no
existence guard inside this method. -/
def createHttpServer (st : LoaderState) (port : SettingsValue) : LoaderState :=
  { st with
      httpServer := some st.nextId
      nextId := st.nextId + 1
      httpPort := port
      trace := st.trace ++ [Ev.httpServerCreated st.nextId] }

/-- Method `createHttpsServer(options)`: unconditionally allocates a fresh
HTTPS server object (`Https.createServer`), stores it in `_httpsServer` and
sets `_settings.httpsPort = options.port`. -/
def createHttpsServer (st : LoaderState) (port : SettingsValue) : LoaderState :=
  { st with
      httpsServer := some st.nextId
      nextId := st.nextId + 1
      httpsPort := port
      trace := st.trace ++ [Ev.httpsServerCreated st.nextId] }

/-- One iteration of the `files.forEach` body of `scan`: emit the
`$log.debug` import line, then try `ControllerService.require(file)
.mapTo(endpoint)`; on failure the error is caught and logged per-file. -/
def importFileStep (env : Env) (endpoint : String) (st : LoaderState)
    (file : String) : LoaderState :=
  let st := emit st (Ev.importFile endpoint file)
  if env.importOk file then
    emit st (Ev.controllerRegistered file endpoint)
  else
    emit st (Ev.importError file)

/-- Method `scan(path, endpoint)`: glob the pattern, log the scan, and
attempt an import of every matching file in order; a per-file failure is
caught inside the loop and does not stop the remaining files. -/
def scan (env : Env) (st : LoaderState) (path : String) (endpoint : String) :
    LoaderState :=
  let files := env.glob path
  let st := emit st (Ev.scanStarted path endpoint)
  files.foldl (importFileStep env endpoint) st

/-- Call `scan(path)` with the default second argument
`endpoint = this._settings.endpoint`. -/
def scanDefault (env : Env) (st : LoaderState) (path : String) : LoaderState :=
  scan env st path st.endpoint

/-- Method `mount(endpoint, path)`: calls `this.scan(path, endpoint)` and
returns `this`; since `scan` mutates `this` in place, the returned object is
exactly the post-scan state. -/
def mount (env : Env) (st : LoaderState) (endpoint : String) (path : String) :
    LoaderState :=
  scan env st path endpoint

/-- The `bind(property, value, map)` dispatch inside `autoload`: a `switch`
over the settings key. `mount` scans every declared endpoint; for the
`mount` case the keys are read from `settingsService.mount`, which at this
point is exactly the `value` that was just stored by `_settings.set`.
`componentsScan` scans every pattern under the default endpoint. `httpPort`
and `httpsPort` create the corresponding server, each guarded by the
`undefined` check on the server field; the HTTPS options are merged as
`Object.assign(map.get("httpsOptions") || {}, {port: value})`, whose `port`
is always the dispatched `value`. Unrecognized keys hit no `case` and do
nothing. -/
def bind (env : Env) (st : LoaderState) (property : String)
    (value : SettingsValue) : LoaderState :=
  if property = "mount" then
    match value with
    | .mountMap entries =>
        entries.foldl (fun s kv => mount env s kv.1 kv.2) st
    | _ => st
  else if property = "componentsScan" then
    match value with
    | .scanList patterns =>
        patterns.foldl (fun s p => scanDefault env s p) st
    | _ => st
  else if property = "httpPort" then
    if st.httpServer = none then createHttpServer st value else st
  else if property = "httpsPort" then
    if st.httpsServer = none then createHttpsServer st value else st
  else st

/-- One step of the second `settingsService.forEach` in `autoload`:
dispatch to `bind` only when the value is truthy (`if (value)`). -/
def dispatchStep (env : Env) (st : LoaderState) (kv : String × SettingsValue) :
    LoaderState :=
  if truthy kv.2 then bind env st kv.1 kv.2 else st

/-- The dispatch pass of `autoload` over the whole settings map. -/
def dispatchPhase (env : Env) (st : LoaderState)
    (settings : List (String × SettingsValue)) : LoaderState :=
  settings.foldl (dispatchStep env) st

/-- The logging pass of `autoload`: the first `settingsService.forEach`,
which logs every key/value pair unconditionally. -/
def logPhase (st : LoaderState) (settings : List (String × SettingsValue)) :
    LoaderState :=
  settings.foldl (fun s kv => emit s (Ev.logSettings kv.1 kv.2)) st

/-- Method `autoload(settings)`: log the header, store the settings, run
the logging pass over every pair, then run the dispatch pass. The two
passes are two separate `forEach` traversals, so every pair is logged
before any dispatch runs. -/
def autoload (env : Env) (st : LoaderState)
    (settings : List (String × SettingsValue)) : LoaderState :=
  let st := emit st (Ev.logInfo "[TSED] Autoload configuration :")
  dispatchPhase env (logPhase st settings) settings

/-- A freshly constructed loader: no servers, ports unset, default endpoint
`"/rest"` (the `ServerSettingsProvider` default), empty trace. -/
def initialState : LoaderState :=
  { httpServer := none
    httpsServer := none
    httpPort := SettingsValue.undef
    httpsPort := SettingsValue.undef
    endpoint := "/rest"
    nextId := 0
    trace := [] }

/-! Modelling the `use` method.

`use(...args)` wraps every function argument through
`HandlerBuilder.from(arg).build()` when `this.injectorService` is set
(it is assigned inside `initializeSettings`), then forwards the processed
argument list to `this.expressApp.use(...args)`. When the injector is not
yet initialized the arguments are forwarded untouched. -/

/-- An argument to `use`: either a plain function (identified by an id) or a
non-function value such as a path prefix. -/
inductive Arg where
  | func (id : Nat)
  | other (v : String)
  deriving Repr, DecidableEq

/-- What actually reaches `expressApp.use`: either the original argument
unchanged, or the handler built from a function argument by
`HandlerBuilder.from(arg).build()`. -/
inductive RegisteredArg where
  | plain (a : Arg)
  | builtHandler (id : Nat)
  deriving Repr, DecidableEq

/-- The per-argument transform inside `use`'s `args.map`: only function
arguments are wrapped through the handler builder. -/
def wrapArg : Arg → RegisteredArg
  | .func id => .builtHandler id
  | .other v => .plain (.other v)

/-- The express-application side of the loader: whether
`this._injectorService` has been assigned, and the ordered list of
arguments registered so far via `expressApp.use`. -/
structure AppState where
  injectorInitialized : Bool
  registered : List RegisteredArg
  deriving Repr, DecidableEq

/-- Method `use(...args)`: map `wrapArg` over the arguments when the
injector service is available, otherwise pass them through unchanged, then
register the processed list on the express application. -/
def use (st : AppState) (args : List Arg) : AppState :=
  let processed :=
    if st.injectorInitialized then args.map wrapArg
    else args.map RegisteredArg.plain
  { st with registered := st.registered ++ processed }

/-! Modelling static directory mounting.

`mountStaticDirectories(mountDirectories)` iterates the mapping's keys and
registers, per entry, a closure at the mount path. The closure serves the
directory via `serve-static` unless `response.headersSent` is already true,
in which case it calls `next()` without touching the response. The model
assumes the `serve-static` module resolves (the `require.resolve` guard). -/

/-- What the installed per-entry closure does with a request, as a function
of `response.headersSent`. -/
inductive StaticAction where
  | serveFromDir (dir : String)
  | callNext
  deriving Repr, DecidableEq

/-- The closure registered for one entry: if headers were not yet sent it
serves static files from the entry's directory, else it calls `next`. -/
def staticHandler (dir : String) (headersSent : Bool) : StaticAction :=
  if !headersSent then .serveFromDir dir else .callNext

/-- One registration made by `mountStaticDirectories`: a mount path and the
installed handler. -/
structure StaticMount where
  mountPath : String
  handler : Bool → StaticAction

/-- Method `mountStaticDirectories`: an `undefined`/missing mapping
registers nothing; otherwise one handler per entry, at the entry's key,
closing over the entry's directory. -/
def mountStaticDirectories (dirs : Option (List (String × String))) :
    List StaticMount :=
  match dirs with
  | none => []
  | some entries => entries.map (fun kv => ⟨kv.1, staticHandler kv.2⟩)

/-! Modelling the boot pipeline: `start`, `initializeSettings`,
`startServers`.

`start()` is an `async` method:

```
try {
  await call("$onInit");
  await this.initializeSettings();
  await this.startServers();
  await call("$onReady");
} catch (err) {
  return call("$onServerInitError", () => { $log.error(...); }, err);
}
```

with `call = (key, elseFn = () => {}, ...args) => key in this ?
this[key](...args) : elseFn`. Note that when `key` is absent, `call`
returns the fallback closure `elseFn` itself without invoking it: awaiting
a function object is a no-op that resolves with the function, so absent
hooks are skipped on the happy path, but in the catch branch the logging
fallback is returned un-invoked, so no `$log.error` runs and `start()`
resolves with the closure rather than `undefined`.

We model each optional hook by an `Option (Except String Unit)`: `none`
when the subclass does not define it, `some outcome` for its awaited
outcome when defined. `$onServerInitError`, when defined, is a function
from the error to the value it returns. Each configured listener's fate is
a `ListenOutcome`. -/

/-- Outcome of one `server.listen` wait: the `listening` event fired, or an
`error` event fired with the given error. -/
inductive ListenOutcome where
  | listening
  | errored (e : String)
  deriving Repr, DecidableEq

/-- A JavaScript value as resolved by `start()`: `undefined` (the implicit
return on the happy path), a function object (the un-invoked fallback
closure), or an ordinary value returned by `$onServerInitError`. -/
inductive JsValue where
  | undef
  | functionObj
  | value (n : Nat)
  deriving Repr, DecidableEq

/-- The optional lifecycle hooks a subclass may define, by their awaited
behaviour. `onMountingMiddlewares` stands for
`importMiddlewares || $onMountingMiddlewares` (first alias wins); absent
both, `new Function` is used, i.e. a no-op. -/
structure BootHooks where
  onInit : Option (Except String Unit)
  onMountingMiddlewares : Option (Except String Unit)
  afterRoutesInit : Option (Except String Unit)
  onReady : Option (Except String Unit)
  onServerInitError : Option (String → JsValue)

/-- Which listeners are configured (`this.httpServer` / `this.httpsServer`
non-undefined when `startServers` runs) and what each one's wait does. -/
structure ServersCfg where
  http : Option ListenOutcome
  https : Option ListenOutcome
  deriving Repr, DecidableEq

/-- Events of the boot pipeline, in the order the implementation emits
them. `listenIssuedHttp`/`listenIssuedHttps` mark the synchronous
`server.listen(...)` calls; `awaitAll` marks the `Promise.all` of the two
listening waits, issued after both `listen` calls. -/
inductive BootEv where
  | onInitCalled
  | injectorLoaded
  | onMountingMiddlewaresCalled
  | controllersLoaded
  | routesPrinted
  | staticMounted
  | afterRoutesInitCalled
  | errorHandlersRegistered
  | listenIssuedHttp
  | listenIssuedHttps
  | awaitAll
  | onReadyCalled
  | onServerInitErrorCalled
  | errorLogged
  deriving Repr, DecidableEq

/-- Run one optional hook: absent hooks are skipped (no event, success);
defined hooks emit their call event and produce their outcome. -/
def runHook (hook : Option (Except String Unit)) (ev : BootEv) :
    List BootEv × Except String Unit :=
  match hook with
  | none => ([], Except.ok ())
  | some out => ([ev], out)

/-- Sequencing of two awaited steps in a promise chain: if the first
rejects, the second never runs (only the first step's events appear and its
error propagates); otherwise the second runs after the first. -/
def andThen (a b : List BootEv × Except String Unit) :
    List BootEv × Except String Unit :=
  match a.2 with
  | .error e => (a.1, .error e)
  | .ok _ => (a.1 ++ b.1, b.2)

/-- Method `initializeSettings()`: load the DI container, await
`$onMountingMiddlewares` (alias `importMiddlewares`), then load controllers
and print routes, then mount static directories and await
`$afterRoutesInit`, then register `$onError` (if any) and the global error
handler middleware. A rejection of either hook rejects the whole promise
chain at that point, skipping the later `.then` steps. -/
def initializeSettings (h : BootHooks) : List BootEv × Except String Unit :=
  andThen ([BootEv.injectorLoaded], Except.ok ())
    (andThen (runHook h.onMountingMiddlewares BootEv.onMountingMiddlewaresCalled)
      (andThen ([BootEv.controllersLoaded, BootEv.routesPrinted], Except.ok ())
        (andThen ([BootEv.staticMounted], Except.ok ())
          (andThen (runHook h.afterRoutesInit BootEv.afterRoutesInitCalled)
            ([BootEv.errorHandlersRegistered], Except.ok ())))))

/-- First error in a list of listen outcomes, if any (the `Promise.all`
aggregate: it resolves when every promise resolved and rejects as soon as
one rejects). -/
def combineAll : List ListenOutcome → Except String Unit
  | [] => .ok ()
  | .listening :: rest => combineAll rest
  | .errored e :: _ => .error e

/-- Method `startServers()`: for each configured server, synchronously call
`listen` (both `listen` calls are issued before anything is awaited), push
a promise resolving on `listening` and rejecting on `error`, then return
`Promise.all` of the pushed promises. -/
def startServers (cfg : ServersCfg) : List BootEv × Except String Unit :=
  let issue :=
    (match cfg.http with
     | some _ => [BootEv.listenIssuedHttp]
     | none => []) ++
    (match cfg.https with
     | some _ => [BootEv.listenIssuedHttps]
     | none => [])
  let outcomes :=
    (match cfg.http with
     | some o => [o]
     | none => []) ++
    (match cfg.https with
     | some o => [o]
     | none => [])
  (issue ++ [BootEv.awaitAll], combineAll outcomes)

/-- The `try` block of `start()`: the four awaited stages in strict
sequence; a rejection at any stage aborts before the later stages run. -/
def pipeline (h : BootHooks) (cfg : ServersCfg) :
    List BootEv × Except String Unit :=
  andThen (runHook h.onInit BootEv.onInitCalled)
    (andThen (initializeSettings h)
      (andThen (startServers cfg)
        (runHook h.onReady BootEv.onReadyCalled)))

/-- Method `start()`: run the pipeline under the `try`; on success the method
falls through and resolves with `undefined`. On a rejection the `catch`
evaluates `call("$onServerInitError", elseFn, err)`: when the hook is
defined it is invoked with the error and `start` resolves with its result;
when it is absent, `call` returns the logging fallback closure without
invoking it, so no error is logged and `start` resolves with that function
object. In either case the returned promise resolves (never rejects). -/
def start (h : BootHooks) (cfg : ServersCfg) :
    List BootEv × Except String JsValue :=
  let p := pipeline h cfg
  match p.2 with
  | .ok _ => (p.1, .ok JsValue.undef)
  | .error e =>
    match h.onServerInitError with
    | some f => (p.1 ++ [BootEv.onServerInitErrorCalled], .ok (f e))
    | none => (p.1, .ok JsValue.functionObj)

/-! Auxiliary definitions used to state the observable properties. -/

/-- The events emitted for one file inside `scan`: the import-attempt debug
line, then either a successful registration or the caught-and-logged
error. -/
def fileTrace (env : Env) (endpoint : String) (file : String) : List Ev :=
  Ev.importFile endpoint file ::
    (if env.importOk file then [Ev.controllerRegistered file endpoint]
     else [Ev.importError file])

/-- The whole trace appended by one `scan(path, endpoint)` call. -/
def scanTraceDelta (env : Env) (path : String) (endpoint : String) :
    List Ev :=
  Ev.scanStarted path endpoint ::
    ((env.glob path).map (fileTrace env endpoint)).flatten

/-- Recognizer for `scanStarted` events. -/
def isScanStarted : Ev → Bool
  | .scanStarted _ _ => true
  | _ => false

/-- Recognizer for per-file import-attempt events. -/
def isImportFile : Ev → Bool
  | .importFile _ _ => true
  | _ => false

/-- Recognizer for successful controller registrations. -/
def isRegistered : Ev → Bool
  | .controllerRegistered _ _ => true
  | _ => false

/-- Recognizer for caught per-file import errors. -/
def isImportError : Ev → Bool
  | .importError _ => true
  | _ => false

/-- Recognizer for HTTP server creations. -/
def isHttpCreated : Ev → Bool
  | .httpServerCreated _ => true
  | _ => false

/-- Recognizer for HTTPS server creations. -/
def isHttpsCreated : Ev → Bool
  | .httpsServerCreated _ => true
  | _ => false

/-- Recognizer for the per-pair settings log lines. -/
def isLogSettings : Ev → Bool
  | .logSettings _ _ => true
  | _ => false

/-- Count the events satisfying a recognizer in a trace. -/
def countEv (p : Ev → Bool) (tr : List Ev) : Nat :=
  tr.countP p

/-- A defined hook behaves well: its awaited outcome is success. Absent
hooks trivially qualify. -/
def okHook : Option (Except String Unit) → Prop
  | none => True
  | some r => r = Except.ok ()

/-- A configured listener reaches `listening`. Unconfigured listeners
trivially qualify. -/
def okListen : Option ListenOutcome → Prop
  | none => True
  | some o => o = ListenOutcome.listening

/-- A fully successful boot configuration: every defined hook succeeds and
every configured listener reaches `listening`. -/
def allOk (h : BootHooks) (cfg : ServersCfg) : Prop :=
  okHook h.onInit ∧ okHook h.onMountingMiddlewares ∧
    okHook h.afterRoutesInit ∧ okHook h.onReady ∧
    okListen cfg.http ∧ okListen cfg.https

/-- A concrete filesystem environment used to instantiate the theorems:
the pattern `"controllers/*.js"` matches three files, of which exactly
`"b.js"` fails to import. -/
def envW : Env :=
  { glob := fun p => if p = "controllers/*.js" then ["a.js", "b.js", "c.js"]
      else []
    importOk := fun f => f != "b.js" }

/-- A concrete subclass defining all four optional stage hooks, all
succeeding, and no `$onServerInitError`. -/
def hW : BootHooks :=
  { onInit := some (Except.ok ())
    onMountingMiddlewares := some (Except.ok ())
    afterRoutesInit := some (Except.ok ())
    onReady := some (Except.ok ())
    onServerInitError := none }

/-- A concrete configuration with both listeners reaching `listening`. -/
def cfgW : ServersCfg :=
  { http := some ListenOutcome.listening
    https := some ListenOutcome.listening }

/-- A concrete configuration whose HTTP listener emits an `error` event and
whose HTTPS listener reaches `listening`. -/
def cfgErr : ServersCfg :=
  { http := some (ListenOutcome.errored "EADDRINUSE")
    https := some ListenOutcome.listening }

/-- A concrete subclass whose `$onInit` rejects and which defines no
`$onServerInitError` hook. -/
def hFail : BootHooks :=
  { onInit := some (Except.error "boom")
    onMountingMiddlewares := none
    afterRoutesInit := none
    onReady := none
    onServerInitError := none }

/-- The same failing subclass, but with an `$onServerInitError` hook that
returns the value 42. -/
def hRecover : BootHooks :=
  { hFail with onServerInitError := some (fun _ => JsValue.value 42) }

/-! Supporting lemmas. -/

theorem importFileStep_eq (env : Env) (e : String) (st : LoaderState)
    (f : String) :
    importFileStep env e st f =
      { st with trace := st.trace ++ fileTrace env e f } := by
  unfold importFileStep fileTrace emit
  cases h : env.importOk f <;> simp [h]

theorem foldl_importFileStep (env : Env) (e : String) :
    ∀ (files : List String) (st : LoaderState),
      files.foldl (importFileStep env e) st =
        { st with
            trace := st.trace ++ (files.map (fileTrace env e)).flatten } := by
  intro files
  induction files with
  | nil => intro st; simp
  | cons f fs ih =>
      intro st
      simp [List.foldl_cons, importFileStep_eq, ih]

theorem scan_eq (env : Env) (st : LoaderState) (p e : String) :
    scan env st p e = { st with trace := st.trace ++ scanTraceDelta env p e } := by
  unfold scan scanTraceDelta emit
  rw [foldl_importFileStep]
  simp

theorem mount_eq (env : Env) (st : LoaderState) (e p : String) :
    mount env st e p = { st with trace := st.trace ++ scanTraceDelta env p e } :=
  scan_eq env st p e

theorem logPhase_eq :
    ∀ (settings : List (String × SettingsValue)) (st : LoaderState),
      logPhase st settings =
        { st with trace := st.trace ++
            settings.map (fun kv => Ev.logSettings kv.1 kv.2) } := by
  intro settings
  induction settings with
  | nil => intro st; simp [logPhase]
  | cons kv rest ih =>
      intro st
      simp [logPhase, List.foldl_cons, emit] at *
      simp [ih, emit]

theorem countEv_append (q : Ev → Bool) (a b : List Ev) :
    countEv q (a ++ b) = countEv q a + countEv q b := by
  simp [countEv, List.countP_append]

theorem fileTraces_counts (env : Env) (e : String) :
    ∀ files : List String,
      countEv isImportFile ((files.map (fileTrace env e)).flatten)
          = files.length ∧
      countEv isRegistered ((files.map (fileTrace env e)).flatten)
          = files.countP (fun f => env.importOk f) ∧
      countEv isImportError ((files.map (fileTrace env e)).flatten)
          = files.countP (fun f => !env.importOk f) ∧
      countEv isScanStarted ((files.map (fileTrace env e)).flatten) = 0 ∧
      countEv isLogSettings ((files.map (fileTrace env e)).flatten) = 0 ∧
      countEv isHttpCreated ((files.map (fileTrace env e)).flatten) = 0 ∧
      countEv isHttpsCreated ((files.map (fileTrace env e)).flatten) = 0 := by
  intro files
  induction files with
  | nil => simp [countEv]
  | cons f fs ih =>
      obtain ⟨i1, i2, i3, i4, i5, i6, i7⟩ := ih
      cases hok : env.importOk f <;>
        simp [fileTrace, hok, countEv, List.countP_append, List.countP_cons,
          isImportFile, isRegistered, isImportError, isScanStarted,
          isLogSettings, isHttpCreated, isHttpsCreated] at * <;>
        omega

theorem scanTraceDelta_counts (env : Env) (p e : String) :
    countEv isScanStarted (scanTraceDelta env p e) = 1 ∧
    countEv isImportFile (scanTraceDelta env p e) = (env.glob p).length ∧
    countEv isRegistered (scanTraceDelta env p e)
        = (env.glob p).countP (fun f => env.importOk f) ∧
    countEv isImportError (scanTraceDelta env p e)
        = (env.glob p).countP (fun f => !env.importOk f) ∧
    countEv isLogSettings (scanTraceDelta env p e) = 0 ∧
    countEv isHttpCreated (scanTraceDelta env p e) = 0 ∧
    countEv isHttpsCreated (scanTraceDelta env p e) = 0 := by
  obtain ⟨i1, i2, i3, i4, i5, i6, i7⟩ := fileTraces_counts env e (env.glob p)
  simp [scanTraceDelta, countEv, List.countP_cons, isScanStarted,
    isImportFile, isRegistered, isImportError, isLogSettings, isHttpCreated,
    isHttpsCreated] at *
  simp [i1, i2, i3, i4, i5, i6, i7]

theorem foldl_mount (env : Env) :
    ∀ (entries : List (String × String)) (st : LoaderState),
      entries.foldl (fun s kv => mount env s kv.1 kv.2) st =
        { st with trace := st.trace ++
            (entries.map (fun kv => scanTraceDelta env kv.2 kv.1)).flatten } := by
  intro entries
  induction entries with
  | nil => intro st; simp
  | cons kv rest ih =>
      intro st
      simp only [List.foldl_cons]
      rw [mount_eq, ih]
      simp

theorem scanDefault_eq (env : Env) (st : LoaderState) (p : String) :
    scanDefault env st p =
      { st with trace := st.trace ++ scanTraceDelta env p st.endpoint } :=
  scan_eq env st p st.endpoint

theorem foldl_scanDefault (env : Env) :
    ∀ (patterns : List String) (st : LoaderState),
      patterns.foldl (fun s p => scanDefault env s p) st =
        { st with trace := st.trace ++
            (patterns.map (fun p => scanTraceDelta env p st.endpoint)).flatten } := by
  intro patterns
  induction patterns with
  | nil => intro st; simp
  | cons p ps ih =>
      intro st
      simp only [List.foldl_cons]
      rw [scanDefault_eq, ih]
      simp

theorem bind_httpPort_none (env : Env) (st : LoaderState) (v : SettingsValue)
    (h : st.httpServer = none) :
    bind env st "httpPort" v = createHttpServer st v := by
  simp [bind, h]

theorem bind_httpPort_some (env : Env) (st : LoaderState) (v : SettingsValue)
    (n : Nat) (h : st.httpServer = some n) :
    bind env st "httpPort" v = st := by
  simp [bind, h]

theorem bind_httpsPort_none (env : Env) (st : LoaderState) (v : SettingsValue)
    (h : st.httpsServer = none) :
    bind env st "httpsPort" v = createHttpsServer st v := by
  simp [bind, h]

theorem bind_httpsPort_some (env : Env) (st : LoaderState) (v : SettingsValue)
    (n : Nat) (h : st.httpsServer = some n) :
    bind env st "httpsPort" v = st := by
  simp [bind, h]

theorem bind_mount_eq (env : Env) (st : LoaderState)
    (entries : List (String × String)) :
    bind env st "mount" (SettingsValue.mountMap entries) =
      { st with trace := st.trace ++
          (entries.map (fun kv => scanTraceDelta env kv.2 kv.1)).flatten } := by
  simp [bind, foldl_mount]

theorem bind_componentsScan_eq (env : Env) (st : LoaderState)
    (patterns : List String) :
    bind env st "componentsScan" (SettingsValue.scanList patterns) =
      { st with trace := st.trace ++
          (patterns.map (fun p => scanTraceDelta env p st.endpoint)).flatten } := by
  simp [bind, foldl_scanDefault]

theorem bind_unrecognized (env : Env) (st : LoaderState) (k : String)
    (v : SettingsValue) (h1 : k ≠ "mount") (h2 : k ≠ "componentsScan")
    (h3 : k ≠ "httpPort") (h4 : k ≠ "httpsPort") :
    bind env st k v = st := by
  simp [bind, h1, h2, h3, h4]

theorem countEv_flatten_zero (q : Ev → Bool) :
    ∀ l : List (List Ev), (∀ d ∈ l, countEv q d = 0) →
      countEv q l.flatten = 0 := by
  intro l
  induction l with
  | nil => intro _; simp [countEv]
  | cons a t ih =>
      intro hall
      have h1 := hall a (by simp)
      have h2 := ih (fun d hd => hall d (by simp [hd]))
      simp only [List.flatten_cons, countEv, List.countP_append] at *
      omega

theorem bind_trace_delta (env : Env) (st : LoaderState) (k : String)
    (v : SettingsValue) :
    ∃ d, (bind env st k v).trace = st.trace ++ d ∧
      countEv isLogSettings d = 0 := by
  by_cases h1 : k = "mount"
  · subst h1
    cases v with
    | mountMap entries =>
        refine ⟨(entries.map (fun kv => scanTraceDelta env kv.2 kv.1)).flatten,
          by simp [bind_mount_eq], ?_⟩
        refine countEv_flatten_zero _ _ ?_
        intro d hd
        simp at hd
        obtain ⟨a, b, _, rfl⟩ := hd
        exact (scanTraceDelta_counts env b a).2.2.2.2.1
    | num n => exact ⟨[], by simp [bind], by simp [countEv]⟩
    | str s => exact ⟨[], by simp [bind], by simp [countEv]⟩
    | boolean b => exact ⟨[], by simp [bind], by simp [countEv]⟩
    | null => exact ⟨[], by simp [bind], by simp [countEv]⟩
    | undef => exact ⟨[], by simp [bind], by simp [countEv]⟩
    | scanList l => exact ⟨[], by simp [bind], by simp [countEv]⟩
    | optionsObj p => exact ⟨[], by simp [bind], by simp [countEv]⟩
  by_cases h2 : k = "componentsScan"
  · subst h2
    cases v with
    | scanList patterns =>
        refine ⟨(patterns.map (fun p => scanTraceDelta env p st.endpoint)).flatten,
          by simp [bind_componentsScan_eq, h1], ?_⟩
        refine countEv_flatten_zero _ _ ?_
        intro d hd
        simp at hd
        obtain ⟨a, _, rfl⟩ := hd
        exact (scanTraceDelta_counts env a st.endpoint).2.2.2.2.1
    | num n => exact ⟨[], by simp [bind, h1], by simp [countEv]⟩
    | str s => exact ⟨[], by simp [bind, h1], by simp [countEv]⟩
    | boolean b => exact ⟨[], by simp [bind, h1], by simp [countEv]⟩
    | null => exact ⟨[], by simp [bind, h1], by simp [countEv]⟩
    | undef => exact ⟨[], by simp [bind, h1], by simp [countEv]⟩
    | mountMap l => exact ⟨[], by simp [bind, h1], by simp [countEv]⟩
    | optionsObj p => exact ⟨[], by simp [bind, h1], by simp [countEv]⟩
  by_cases h3 : k = "httpPort"
  · subst h3
    cases hsrv : st.httpServer with
    | none =>
        exact ⟨[Ev.httpServerCreated st.nextId],
          by simp [bind_httpPort_none env st v hsrv, createHttpServer],
          by simp [countEv, isLogSettings]⟩
    | some n =>
        exact ⟨[], by simp [bind_httpPort_some env st v n hsrv], by simp [countEv]⟩
  by_cases h4 : k = "httpsPort"
  · subst h4
    cases hsrv : st.httpsServer with
    | none =>
        exact ⟨[Ev.httpsServerCreated st.nextId],
          by simp [bind_httpsPort_none env st v hsrv, createHttpsServer],
          by simp [countEv, isLogSettings]⟩
    | some n =>
        exact ⟨[], by simp [bind_httpsPort_some env st v n hsrv], by simp [countEv]⟩
  exact ⟨[], by simp [bind_unrecognized env st k v h1 h2 h3 h4], by simp [countEv]⟩

theorem dispatchStep_trace_delta (env : Env) (st : LoaderState)
    (kv : String × SettingsValue) :
    ∃ d, (dispatchStep env st kv).trace = st.trace ++ d ∧
      countEv isLogSettings d = 0 := by
  unfold dispatchStep
  cases ht : truthy kv.2 with
  | true =>
      simpa [ht] using bind_trace_delta env st kv.1 kv.2
  | false => exact ⟨[], by simp [ht], by simp [countEv]⟩

theorem dispatchPhase_trace_delta (env : Env) :
    ∀ (settings : List (String × SettingsValue)) (st : LoaderState),
      ∃ d, (dispatchPhase env st settings).trace = st.trace ++ d ∧
        countEv isLogSettings d = 0 := by
  intro settings
  induction settings with
  | nil => exact fun st => ⟨[], by simp [dispatchPhase], by simp [countEv]⟩
  | cons kv rest ih =>
      intro st
      obtain ⟨d1, hd1, hc1⟩ := dispatchStep_trace_delta env st kv
      obtain ⟨d2, hd2, hc2⟩ := ih (dispatchStep env st kv)
      refine ⟨d1 ++ d2, ?_, ?_⟩
      · simp [dispatchPhase, List.foldl_cons] at hd2 ⊢
        simp [hd2, hd1]
      · simp [countEv_append, hc1, hc2]

theorem andThen_fst_ok (a b : List BootEv × Except String Unit)
    (h : a.2 = Except.ok ()) : andThen a b = (a.1 ++ b.1, b.2) := by
  unfold andThen
  rw [h]

theorem andThen_fst_error (a b : List BootEv × Except String Unit)
    (e : String) (h : a.2 = Except.error e) : andThen a b = (a.1, Except.error e) := by
  unfold andThen
  rw [h]

theorem andThen_snd_ok (a b : List BootEv × Except String Unit) :
    (andThen a b).2 = Except.ok () ↔
      (a.2 = Except.ok () ∧ b.2 = Except.ok ()) := by
  rcases a with ⟨ta, ra⟩
  rcases b with ⟨tb, rb⟩
  rcases ra with e | u
  · simp [andThen]
  · cases u
    simp [andThen]

theorem hookShape (o : Option (Except String Unit)) (h : okHook o) :
    o = none ∨ o = some (Except.ok ()) := by
  rcases o with _ | r
  · exact Or.inl rfl
  · right
    simp only [okHook] at h
    rw [h]

theorem listenShape (o : Option ListenOutcome) (h : okListen o) :
    o = none ∨ o = some ListenOutcome.listening := by
  rcases o with _ | r
  · exact Or.inl rfl
  · right
    simp only [okListen] at h
    rw [h]

theorem mem_runHook (hook : Option (Except String Unit)) (ev x : BootEv)
    (h : x ∈ (runHook hook ev).1) : x = ev := by
  rcases hook with _ | r <;> simp [runHook] at h
  exact h

theorem optShape (o : Option (Except String Unit)) :
    o = none ∨ (∃ e, o = some (Except.error e)) ∨
      o = some (Except.ok ()) := by
  rcases o with _ | r
  · exact Or.inl rfl
  · rcases r with e | u
    · exact Or.inr (Or.inl ⟨e, rfl⟩)
    · cases u
      exact Or.inr (Or.inr rfl)

theorem mem_initializeSettings (h : BootHooks) (x : BootEv)
    (hx : x ∈ (initializeSettings h).1) :
    x = BootEv.injectorLoaded ∨ x = BootEv.onMountingMiddlewaresCalled ∨
      x = BootEv.controllersLoaded ∨ x = BootEv.routesPrinted ∨
      x = BootEv.staticMounted ∨ x = BootEv.afterRoutesInitCalled ∨
      x = BootEv.errorHandlersRegistered := by
  rcases optShape h.onMountingMiddlewares with h2 | ⟨e2, h2⟩ | h2 <;>
    rcases optShape h.afterRoutesInit with h3 | ⟨e3, h3⟩ | h3 <;>
    simp [initializeSettings, runHook, andThen, h2, h3] at hx <;>
    tauto

theorem mem_startServers (cfg : ServersCfg) (x : BootEv)
    (hx : x ∈ (startServers cfg).1) :
    x = BootEv.listenIssuedHttp ∨ x = BootEv.listenIssuedHttps ∨
      x = BootEv.awaitAll := by
  rcases cfg with ⟨ch, cs⟩
  rcases ch with _ | oh <;> rcases cs with _ | os <;>
    simp [startServers] at hx <;> tauto

theorem onReady_not_mem_of_startServers_error (h : BootHooks)
    (cfg : ServersCfg) (e : String)
    (hsrv : (startServers cfg).2 = Except.error e) :
    BootEv.onReadyCalled ∉ (pipeline h cfg).1 := by
  intro hmem
  unfold pipeline at hmem
  rcases h0 : (runHook h.onInit BootEv.onInitCalled).2 with e0 | u0
  · rw [andThen_fst_error _ _ _ h0] at hmem
    have := mem_runHook h.onInit BootEv.onInitCalled _ hmem
    simp at this
  · cases u0
    rw [andThen_fst_ok _ _ h0] at hmem
    simp only [List.mem_append] at hmem
    rcases hmem with hmem | hmem
    · have := mem_runHook h.onInit BootEv.onInitCalled _ hmem
      simp at this
    rcases h1 : (initializeSettings h).2 with e1 | u1
    · rw [andThen_fst_error _ _ _ h1] at hmem
      have := mem_initializeSettings h _ hmem
      simp at this
    · cases u1
      rw [andThen_fst_ok _ _ h1] at hmem
      simp only [List.mem_append] at hmem
      rcases hmem with hmem | hmem
      · have := mem_initializeSettings h _ hmem
        simp at this
      rw [andThen_fst_error _ _ _ hsrv] at hmem
      have := mem_startServers cfg _ hmem
      simp at this

theorem countP_ok_add_countP_not {α : Type} (p : α → Bool) (l : List α) :
    l.countP p + l.countP (fun a => !p a) = l.length := by
  induction l with
  | nil => simp
  | cons f fs ih =>
      cases h : p f <;> simp [List.countP_cons, h] <;> omega

theorem countEv_scanStarted_flatten_mounts (env : Env) :
    ∀ l : List (String × String),
      countEv isScanStarted
        ((l.map (fun kv => scanTraceDelta env kv.2 kv.1)).flatten) =
      l.length := by
  intro l
  induction l with
  | nil => simp [countEv]
  | cons kv t ih =>
      have h1 := (scanTraceDelta_counts env kv.2 kv.1).1
      simp only [List.map_cons, List.flatten_cons, List.length_cons, countEv,
        List.countP_append] at *
      omega

theorem countEv_scanStarted_flatten_pats (env : Env) (e : String) :
    ∀ l : List String,
      countEv isScanStarted
        ((l.map (fun p => scanTraceDelta env p e)).flatten) = l.length := by
  intro l
  induction l with
  | nil => simp [countEv]
  | cons p t ih =>
      have h1 := (scanTraceDelta_counts env p e).1
      simp only [List.map_cons, List.flatten_cons, List.length_cons, countEv,
        List.countP_append] at *
      omega

theorem runHook_ok_of_okHook (o : Option (Except String Unit)) (ev : BootEv)
    (h : okHook o) : (runHook o ev).2 = Except.ok () := by
  rcases hookShape o h with hv | hv <;> simp [runHook, hv]

theorem pipeline_init_error (h : BootHooks) (cfg : ServersCfg) (e : String)
    (h0 : okHook h.onInit) (h1 : (initializeSettings h).2 = Except.error e) :
    pipeline h cfg =
      ((runHook h.onInit BootEv.onInitCalled).1 ++ (initializeSettings h).1,
        Except.error e) := by
  have k0 := runHook_ok_of_okHook h.onInit BootEv.onInitCalled h0
  unfold pipeline
  rw [andThen_fst_error _ _ _ h1, andThen_fst_ok _ _ k0]

theorem pipeline_srv_error (h : BootHooks) (cfg : ServersCfg) (e : String)
    (h0 : okHook h.onInit) (h1 : (initializeSettings h).2 = Except.ok ())
    (h2 : (startServers cfg).2 = Except.error e) :
    pipeline h cfg =
      ((runHook h.onInit BootEv.onInitCalled).1 ++
        ((initializeSettings h).1 ++ (startServers cfg).1),
        Except.error e) := by
  have k0 := runHook_ok_of_okHook h.onInit BootEv.onInitCalled h0
  unfold pipeline
  rw [andThen_fst_error _ _ _ h2, andThen_fst_ok _ _ h1, andThen_fst_ok _ _ k0]

/-! Theorems for the specification claims. -/

/-- C9: for every endpoint string and path string, `mount(endpoint, path)`
has exactly the same observable effect as `scan(path, endpoint)` and
returns the same lifecycle object (the mutated `this`). -/
theorem mount_is_scan_swapped (env : Env) (st : LoaderState)
    (endpoint path : String) :
    mount env st endpoint path = scan env st path endpoint := rfl

/-- C6: for every call to `use(...args)`: when the DI container is
initialized, every function argument is replaced by its handler-builder
wrapping and every non-function argument passes through unchanged before
registration on the application; when the container is not yet initialized,
all arguments pass through to the application unchanged. -/
theorem use_wraps_only_with_injector (st : AppState) (args : List Arg) :
    (st.injectorInitialized = true →
      (use st args).registered = st.registered ++ args.map wrapArg) ∧
    (st.injectorInitialized = false →
      (use st args).registered =
        st.registered ++ args.map RegisteredArg.plain) ∧
    (∀ id, wrapArg (Arg.func id) = RegisteredArg.builtHandler id) ∧
    (∀ v, wrapArg (Arg.other v) = RegisteredArg.plain (Arg.other v)) := by
  refine ⟨fun h => ?_, fun h => ?_, fun _ => rfl, fun _ => rfl⟩ <;>
    simp [use, h]

/-- Witness for C6 at a concrete state and argument list. -/
theorem use_wraps_only_with_injector_w :
    (use { injectorInitialized := true, registered := [] }
        [Arg.func 7, Arg.other "/base"]).registered =
      [] ++ [Arg.func 7, Arg.other "/base"].map wrapArg ∧
    (use { injectorInitialized := false, registered := [] }
        [Arg.func 7]).registered =
      [] ++ [Arg.func 7].map RegisteredArg.plain :=
  ⟨(use_wraps_only_with_injector
      { injectorInitialized := true, registered := [] }
      [Arg.func 7, Arg.other "/base"]).1 rfl,
   (use_wraps_only_with_injector
      { injectorInitialized := false, registered := [] }
      [Arg.func 7]).2.1 rfl⟩

/-- C8: every mapping entry registered by `mountStaticDirectories` installs
a handler at the entry's mount path which, on a request whose response was
already sent (`headersSent`), calls `next` without writing, and otherwise
serves static files from the entry's directory. -/
theorem static_mount_short_circuit (entries : List (String × String))
    (mp dir : String) (hmem : (mp, dir) ∈ entries) :
    (∃ m ∈ mountStaticDirectories (some entries),
        m.mountPath = mp ∧ m.handler true = StaticAction.callNext ∧
        m.handler false = StaticAction.serveFromDir dir) ∧
    (mountStaticDirectories (some entries)).length = entries.length ∧
    mountStaticDirectories none = [] := by
  refine ⟨⟨⟨mp, staticHandler dir⟩,
    List.mem_map.mpr ⟨(mp, dir), hmem, rfl⟩, rfl, rfl, rfl⟩,
    by simp [mountStaticDirectories], rfl⟩

/-- Witness for C8 with a one-entry static mapping. -/
theorem static_mount_short_circuit_w :
    ∃ m ∈ mountStaticDirectories (some [("/assets", "/var/www")]),
      m.mountPath = "/assets" ∧ m.handler true = StaticAction.callNext ∧
      m.handler false = StaticAction.serveFromDir "/var/www" :=
  (static_mount_short_circuit [("/assets", "/var/www")] "/assets" "/var/www"
    (by simp)).1

/-- C10: during `autoload`, a recognized settings key whose value is falsy
(0, `false`, the empty string, `null` or `undefined`) is dispatched to no
handler at all — for example `httpPort = 0` creates no HTTP listener — even
though the pair is still logged; the guard is JavaScript truthiness. -/
theorem autoload_falsy_not_dispatched (env : Env) (st : LoaderState)
    (k : String) (v : SettingsValue) (hfalsy : truthy v = false) :
    dispatchStep env st (k, v) = st ∧
    (autoload env st [(k, v)]).trace =
      st.trace ++ [Ev.logInfo "[TSED] Autoload configuration :",
        Ev.logSettings k v] ∧
    (autoload env st [("httpPort", SettingsValue.num 0)]).httpServer =
      st.httpServer ∧
    truthy (SettingsValue.num 0) = false ∧
    truthy (SettingsValue.boolean false) = false ∧
    truthy (SettingsValue.str "") = false ∧
    truthy SettingsValue.null = false ∧
    truthy SettingsValue.undef = false := by
  refine ⟨by simp [dispatchStep, hfalsy], ?_, ?_, by decide, by decide,
    by decide, by decide, by decide⟩
  · simp [autoload, dispatchPhase, List.foldl_cons, logPhase, emit,
      dispatchStep, hfalsy]
  · simp [autoload, dispatchPhase, List.foldl_cons, logPhase, emit,
      dispatchStep, truthy]

/-- Witness for C10: `httpPort = 0` at a concrete fresh loader. -/
theorem autoload_falsy_not_dispatched_w :
    dispatchStep envW initialState ("httpPort", SettingsValue.num 0) =
      initialState ∧
    (autoload envW initialState
        [("httpPort", SettingsValue.num 0)]).httpServer =
      initialState.httpServer := by
  refine ⟨(autoload_falsy_not_dispatched envW initialState "httpPort"
      (SettingsValue.num 0) (by decide)).1,
    (autoload_falsy_not_dispatched envW initialState "httpPort"
      (SettingsValue.num 0) (by decide)).2.2.1⟩

/-- C2 counterexample: a second direct `createHttpServer` call when an HTTP
listener already exists is not a no-op: it allocates a second server object
and replaces the stored listener (the claim asserts it would not create a
second listener). -/
theorem createHttpServer_second_call_not_guarded :
    countEv isHttpCreated
        (createHttpServer
          (createHttpServer initialState (SettingsValue.num 8080))
          (SettingsValue.num 8080)).trace = 2 ∧
    (createHttpServer
        (createHttpServer initialState (SettingsValue.num 8080))
        (SettingsValue.num 8080)).httpServer ≠
      (createHttpServer initialState (SettingsValue.num 8080)).httpServer := by
  decide

/-- C2 (amended): only the `autoload` dispatch of `httpPort`/`httpsPort` is
guarded by the listener-existence check: when a listener already exists the
dispatch is a no-op, and when none exists it creates exactly one; a direct
`createHttpServer` call is unguarded and unconditionally installs a fresh
server object. -/
theorem autoload_port_dispatch_idempotent (env : Env) (st : LoaderState)
    (v w : SettingsValue) (n m : Nat) :
    (st.httpServer = some n → dispatchStep env st ("httpPort", v) = st) ∧
    (st.httpsServer = some m → dispatchStep env st ("httpsPort", w) = st) ∧
    (st.httpServer = none → truthy v = true →
      dispatchStep env st ("httpPort", v) = createHttpServer st v ∧
      (dispatchStep env st ("httpPort", v)).trace =
        st.trace ++ [Ev.httpServerCreated st.nextId]) ∧
    (createHttpServer st v).httpServer = some st.nextId := by
  refine ⟨fun h => ?_, fun h => ?_, fun h ht => ?_, rfl⟩
  · cases htv : truthy v
    · simp [dispatchStep, htv]
    · simp [dispatchStep, htv, bind_httpPort_some env st v n h]
  · cases htw : truthy w
    · simp [dispatchStep, htw]
    · simp [dispatchStep, htw, bind_httpsPort_some env st w m h]
  · refine ⟨by simp [dispatchStep, ht, bind_httpPort_none env st v h], ?_⟩
    simp [dispatchStep, ht, bind_httpPort_none env st v h, createHttpServer]

/-- Witness for C2 (amended): the guarded dispatch at concrete states. -/
theorem autoload_port_dispatch_idempotent_w :
    dispatchStep envW (createHttpServer initialState (SettingsValue.num 8080))
        ("httpPort", SettingsValue.num 9090) =
      createHttpServer initialState (SettingsValue.num 8080) ∧
    dispatchStep envW initialState ("httpPort", SettingsValue.num 8080) =
      createHttpServer initialState (SettingsValue.num 8080) :=
  ⟨(autoload_port_dispatch_idempotent envW
      (createHttpServer initialState (SettingsValue.num 8080))
      (SettingsValue.num 9090) SettingsValue.undef 0 0).1 rfl,
   ((autoload_port_dispatch_idempotent envW initialState
      (SettingsValue.num 8080) SettingsValue.undef 0 0).2.2.1 rfl rfl).1⟩

/-- C5: a `scan` over files of which exactly one fails to import attempts
every file, registers all others, and logs exactly one error; the failure
does not abort the scan. -/
theorem scan_single_failure_tolerated (env : Env) (st : LoaderState)
    (path endpoint : String)
    (hone : (env.glob path).countP (fun f => !env.importOk f) = 1) :
    countEv isImportFile (scan env st path endpoint).trace =
      countEv isImportFile st.trace + (env.glob path).length ∧
    countEv isRegistered (scan env st path endpoint).trace =
      countEv isRegistered st.trace + ((env.glob path).length - 1) ∧
    countEv isImportError (scan env st path endpoint).trace =
      countEv isImportError st.trace + 1 := by
  obtain ⟨c1, c2, c3, c4, c5, c6, c7⟩ := scanTraceDelta_counts env path endpoint
  have hlen := countP_ok_add_countP_not (fun f => env.importOk f) (env.glob path)
  rw [scan_eq]
  refine ⟨?_, ?_, ?_⟩ <;>
    simp only [countEv_append, c2, c3, c4] <;>
    simp at hlen ⊢ <;> omega

/-- Witness for C5 with the concrete three-file environment in which only
`b.js` throws. -/
theorem scan_single_failure_tolerated_w :
    countEv isImportFile
        (scan envW initialState "controllers/*.js" "/rest").trace =
      countEv isImportFile initialState.trace +
        (envW.glob "controllers/*.js").length ∧
    countEv isRegistered
        (scan envW initialState "controllers/*.js" "/rest").trace =
      countEv isRegistered initialState.trace +
        ((envW.glob "controllers/*.js").length - 1) ∧
    countEv isImportError
        (scan envW initialState "controllers/*.js" "/rest").trace =
      countEv isImportError initialState.trace + 1 :=
  scan_single_failure_tolerated envW initialState "controllers/*.js" "/rest"
    (by decide)


/-- C7: during `autoload` every key/value pair is logged before any
dispatch handler runs (the autoload trace is the header, then one
`logSettings` event per pair in order, then dispatch output containing no
settings log); each truthy recognized key produces exactly one
corresponding side effect (one listener created when none exists, one scan
per declared mount entry or scan pattern); unrecognized keys produce zero
side effects. -/
theorem autoload_logs_then_dispatch (env : Env) (st : LoaderState)
    (settings : List (String × SettingsValue)) (k : String)
    (v : SettingsValue) :
    (∃ d, (autoload env st settings).trace =
        st.trace ++ (Ev.logInfo "[TSED] Autoload configuration :" ::
          settings.map (fun kv => Ev.logSettings kv.1 kv.2)) ++ d ∧
        countEv isLogSettings d = 0) ∧
    (truthy v = true → st.httpServer = none →
      (dispatchStep env st ("httpPort", v)).trace =
        st.trace ++ [Ev.httpServerCreated st.nextId]) ∧
    (truthy v = true → st.httpsServer = none →
      (dispatchStep env st ("httpsPort", v)).trace =
        st.trace ++ [Ev.httpsServerCreated st.nextId]) ∧
    (∀ entries, countEv isScanStarted
        (dispatchStep env st
          ("mount", SettingsValue.mountMap entries)).trace =
      countEv isScanStarted st.trace + entries.length) ∧
    (∀ patterns, countEv isScanStarted
        (dispatchStep env st
          ("componentsScan", SettingsValue.scanList patterns)).trace =
      countEv isScanStarted st.trace + patterns.length) ∧
    (k ∉ (["mount", "componentsScan", "httpPort", "httpsPort"] :
        List String) →
      dispatchStep env st (k, v) = st) := by
  refine ⟨?_, ?_, ?_, ?_, ?_, ?_⟩
  · obtain ⟨d, hd, hc⟩ := dispatchPhase_trace_delta env settings
      (logPhase (emit st (Ev.logInfo "[TSED] Autoload configuration :"))
        settings)
    refine ⟨d, ?_, hc⟩
    rw [show (autoload env st settings).trace =
        (logPhase (emit st (Ev.logInfo "[TSED] Autoload configuration :"))
          settings).trace ++ d from hd]
    rw [logPhase_eq]
    simp [emit]
  · intro ht hs
    simp [dispatchStep, ht, bind_httpPort_none env st v hs, createHttpServer]
  · intro ht hs
    simp [dispatchStep, ht, bind_httpsPort_none env st v hs, createHttpsServer]
  · intro entries
    rw [show dispatchStep env st ("mount", SettingsValue.mountMap entries) =
        bind env st "mount" (SettingsValue.mountMap entries) from by
      simp [dispatchStep, truthy]]
    rw [bind_mount_eq]
    simp [countEv_append, countEv_scanStarted_flatten_mounts]
  · intro patterns
    rw [show dispatchStep env st
          ("componentsScan", SettingsValue.scanList patterns) =
        bind env st "componentsScan" (SettingsValue.scanList patterns) from by
      simp [dispatchStep, truthy]]
    rw [bind_componentsScan_eq]
    simp [countEv_append, countEv_scanStarted_flatten_pats]
  · intro hk
    simp only [List.mem_cons, List.not_mem_nil, or_false, not_or] at hk
    obtain ⟨h1, h2, h3, h4⟩ := hk
    cases ht : truthy v
    · simp [dispatchStep, ht]
    · simp [dispatchStep, ht, bind_unrecognized env st k v h1 h2 h3 h4]

/-- Witness for C7 at a concrete environment, state and settings map. -/
theorem autoload_logs_then_dispatch_w :
    (∃ d, (autoload envW initialState
        [("httpPort", SettingsValue.num 8080),
         ("unknownKey", SettingsValue.str "x")]).trace =
      initialState.trace ++
        (Ev.logInfo "[TSED] Autoload configuration :" ::
          [("httpPort", SettingsValue.num 8080),
           ("unknownKey", SettingsValue.str "x")].map
            (fun kv => Ev.logSettings kv.1 kv.2)) ++ d ∧
      countEv isLogSettings d = 0) ∧
    (dispatchStep envW initialState
        ("httpPort", SettingsValue.num 8080)).trace =
      initialState.trace ++ [Ev.httpServerCreated initialState.nextId] ∧
    dispatchStep envW initialState ("unknownKey", SettingsValue.str "x") =
      initialState := by
  refine ⟨(autoload_logs_then_dispatch envW initialState
      [("httpPort", SettingsValue.num 8080),
       ("unknownKey", SettingsValue.str "x")] "unknownKey"
      (SettingsValue.str "x")).1, ?_, ?_⟩
  · exact (autoload_logs_then_dispatch envW initialState []
      "unknownKey" (SettingsValue.num 8080)).2.1 (by decide) rfl
  · exact (autoload_logs_then_dispatch envW initialState []
      "unknownKey" (SettingsValue.str "x")).2.2.2.2.2 (by decide)

/-- C4: with both an HTTP and an HTTPS listener configured, `startServers`
issues both listen calls before awaiting either (both issue events precede
the aggregate await in the trace); it succeeds exactly when both listeners
emit `listening`; an error event on either listener makes it reject, and
success/failure is independent of the order of the two start calls; its
rejection aborts the boot pipeline before `$onReady`. -/
theorem startServers_dual_listener (a b : ListenOutcome) (h : BootHooks) :
    (startServers { http := some a, https := some b }).1 =
      [BootEv.listenIssuedHttp, BootEv.listenIssuedHttps, BootEv.awaitAll] ∧
    ((startServers { http := some a, https := some b }).2 = Except.ok () ↔
      (a = ListenOutcome.listening ∧ b = ListenOutcome.listening)) ∧
    (∀ e, a = ListenOutcome.errored e →
      (startServers { http := some a, https := some b }).2 =
        Except.error e) ∧
    (∀ e, b = ListenOutcome.errored e →
      ∃ e2, (startServers { http := some a, https := some b }).2 =
        Except.error e2) ∧
    ((startServers { http := some a, https := some b }).2 = Except.ok () ↔
      (startServers { http := some b, https := some a }).2 = Except.ok ()) ∧
    (∀ e, (startServers { http := some a, https := some b }).2 =
        Except.error e →
      BootEv.onReadyCalled ∉
        (pipeline h { http := some a, https := some b }).1) := by
  refine ⟨rfl, ?_, ?_, ?_, ?_, ?_⟩
  · rcases a with _ | ea <;> rcases b with _ | eb <;>
      simp [startServers, combineAll]
  · intro e he
    rw [he]
    simp [startServers, combineAll]
  · intro e he
    rw [he]
    rcases a with _ | ea
    · exact ⟨e, by simp [startServers, combineAll]⟩
    · exact ⟨ea, by simp [startServers, combineAll]⟩
  · rcases a with _ | ea <;> rcases b with _ | eb <;>
      simp [startServers, combineAll]
  · intro e he
    exact onReady_not_mem_of_startServers_error h _ e he

/-- Witness for C4: an HTTP bind error propagates and `$onReady` is never
reached. -/
theorem startServers_dual_listener_w :
    (startServers cfgErr).2 = Except.error "EADDRINUSE" ∧
    BootEv.onReadyCalled ∉ (pipeline hW cfgErr).1 := by
  refine ⟨(startServers_dual_listener (ListenOutcome.errored "EADDRINUSE")
      ListenOutcome.listening hW).2.2.1 "EADDRINUSE" rfl, ?_⟩
  exact (startServers_dual_listener (ListenOutcome.errored "EADDRINUSE")
      ListenOutcome.listening hW).2.2.2.2.2 "EADDRINUSE" (by rfl)


/-- C3: `start()` runs exactly four stages in strict sequence —
`$onInit`, `initializeSettings`, `startServers`, `$onReady` — each awaited
only after the previous completes: on success the trace is the
concatenation of the four stage traces in order (and `start` resolves with
`undefined`); a rejection at any stage aborts the pipeline so no
later-stage event occurs; omitting any optional hook leaves the success
path unchanged except for skipping that one call event. -/
theorem start_four_stage_sequence (h : BootHooks) (cfg : ServersCfg) :
    ((pipeline h cfg).2 = Except.ok () →
      (pipeline h cfg).1 =
        (runHook h.onInit BootEv.onInitCalled).1 ++ (initializeSettings h).1
          ++ (startServers cfg).1
          ++ (runHook h.onReady BootEv.onReadyCalled).1 ∧
      start h cfg = ((pipeline h cfg).1, Except.ok JsValue.undef)) ∧
    (∀ e, h.onInit = some (Except.error e) →
      pipeline h cfg = ([BootEv.onInitCalled], Except.error e)) ∧
    (∀ e, okHook h.onInit → (initializeSettings h).2 = Except.error e →
      (pipeline h cfg).2 = Except.error e ∧
      BootEv.awaitAll ∉ (pipeline h cfg).1 ∧
      BootEv.onReadyCalled ∉ (pipeline h cfg).1) ∧
    (∀ e, okHook h.onInit → (initializeSettings h).2 = Except.ok () →
      (startServers cfg).2 = Except.error e →
      (pipeline h cfg).2 = Except.error e ∧
      BootEv.onReadyCalled ∉ (pipeline h cfg).1) ∧
    (allOk h cfg →
      pipeline { h with onInit := none } cfg =
        ((pipeline h cfg).1.filter
            (fun ev => decide (ev ≠ BootEv.onInitCalled)),
          Except.ok ())) ∧
    (allOk h cfg →
      pipeline { h with onMountingMiddlewares := none } cfg =
        ((pipeline h cfg).1.filter
            (fun ev => decide (ev ≠ BootEv.onMountingMiddlewaresCalled)),
          Except.ok ())) ∧
    (allOk h cfg →
      pipeline { h with afterRoutesInit := none } cfg =
        ((pipeline h cfg).1.filter
            (fun ev => decide (ev ≠ BootEv.afterRoutesInitCalled)),
          Except.ok ())) ∧
    (allOk h cfg →
      pipeline { h with onReady := none } cfg =
        ((pipeline h cfg).1.filter
            (fun ev => decide (ev ≠ BootEv.onReadyCalled)),
          Except.ok ())) := by
  obtain ⟨o1, o2, o3, o4, oe⟩ := h
  obtain ⟨ch, cs⟩ := cfg
  refine ⟨?_, ?_, ?_, ?_, ?_, ?_, ?_, ?_⟩
  · intro hok
    have hok2 := hok
    unfold pipeline at hok2
    rw [andThen_snd_ok] at hok2
    obtain ⟨k0, hok2⟩ := hok2
    rw [andThen_snd_ok] at hok2
    obtain ⟨k1, hok2⟩ := hok2
    rw [andThen_snd_ok] at hok2
    obtain ⟨k2, k3⟩ := hok2
    constructor
    · unfold pipeline
      rw [andThen_fst_ok _ _ k2, andThen_fst_ok _ _ k1, andThen_fst_ok _ _ k0]
      simp
    · simp only [start]
      rw [hok]
  · intro e he
    subst he
    simp [pipeline, runHook, andThen]
  · intro e h0 h1e
    have hp := pipeline_init_error ⟨o1, o2, o3, o4, oe⟩ ⟨ch, cs⟩ e h0 h1e
    rw [hp]
    refine ⟨rfl, ?_, ?_⟩
    · intro hmem
      simp only [List.mem_append] at hmem
      rcases hmem with hm | hm
      · have := mem_runHook _ _ _ hm
        simp at this
      · have := mem_initializeSettings _ _ hm
        simp at this
    · intro hmem
      simp only [List.mem_append] at hmem
      rcases hmem with hm | hm
      · have := mem_runHook _ _ _ hm
        simp at this
      · have := mem_initializeSettings _ _ hm
        simp at this
  · intro e h0 h1ok h2e
    have hp := pipeline_srv_error ⟨o1, o2, o3, o4, oe⟩ ⟨ch, cs⟩ e h0 h1ok h2e
    rw [hp]
    refine ⟨rfl, ?_⟩
    intro hmem
    simp only [List.mem_append] at hmem
    rcases hmem with hm | hm | hm
    · have := mem_runHook _ _ _ hm
      simp at this
    · have := mem_initializeSettings _ _ hm
      simp at this
    · have := mem_startServers _ _ hm
      simp at this
  · intro hall
    obtain ⟨a1, a2, a3, a4, a5, a6⟩ := hall
    rcases hookShape o1 a1 with rfl | rfl <;>
      rcases hookShape o2 a2 with rfl | rfl <;>
      rcases hookShape o3 a3 with rfl | rfl <;>
      rcases hookShape o4 a4 with rfl | rfl <;>
      rcases listenShape ch a5 with rfl | rfl <;>
      rcases listenShape cs a6 with rfl | rfl <;>
      rfl
  · intro hall
    obtain ⟨a1, a2, a3, a4, a5, a6⟩ := hall
    rcases hookShape o1 a1 with rfl | rfl <;>
      rcases hookShape o2 a2 with rfl | rfl <;>
      rcases hookShape o3 a3 with rfl | rfl <;>
      rcases hookShape o4 a4 with rfl | rfl <;>
      rcases listenShape ch a5 with rfl | rfl <;>
      rcases listenShape cs a6 with rfl | rfl <;>
      rfl
  · intro hall
    obtain ⟨a1, a2, a3, a4, a5, a6⟩ := hall
    rcases hookShape o1 a1 with rfl | rfl <;>
      rcases hookShape o2 a2 with rfl | rfl <;>
      rcases hookShape o3 a3 with rfl | rfl <;>
      rcases hookShape o4 a4 with rfl | rfl <;>
      rcases listenShape ch a5 with rfl | rfl <;>
      rcases listenShape cs a6 with rfl | rfl <;>
      rfl
  · intro hall
    obtain ⟨a1, a2, a3, a4, a5, a6⟩ := hall
    rcases hookShape o1 a1 with rfl | rfl <;>
      rcases hookShape o2 a2 with rfl | rfl <;>
      rcases hookShape o3 a3 with rfl | rfl <;>
      rcases hookShape o4 a4 with rfl | rfl <;>
      rcases listenShape ch a5 with rfl | rfl <;>
      rcases listenShape cs a6 with rfl | rfl <;>
      rfl

/-- Witness for C3 at the all-success concrete subclass with both
listeners. -/
theorem start_four_stage_sequence_w :
    (pipeline hW cfgW).2 = Except.ok () ∧
    (pipeline hW cfgW).1 =
      (runHook hW.onInit BootEv.onInitCalled).1 ++ (initializeSettings hW).1
        ++ (startServers cfgW).1
        ++ (runHook hW.onReady BootEv.onReadyCalled).1 ∧
    allOk hW cfgW ∧
    pipeline { hW with onReady := none } cfgW =
      ((pipeline hW cfgW).1.filter
          (fun ev => decide (ev ≠ BootEv.onReadyCalled)),
        Except.ok ()) := by
  refine ⟨rfl, ((start_four_stage_sequence hW cfgW).1 rfl).1, ?_, ?_⟩
  · exact ⟨rfl, rfl, rfl, rfl, rfl, rfl⟩
  · exact (start_four_stage_sequence hW cfgW).2.2.2.2.2.2.2
      ⟨rfl, rfl, rfl, rfl, rfl, rfl⟩

/-- C1 (evaluating the failure contract): with `$onInit` rejecting and no
`$onServerInitError` defined, the `call` helper in the `catch` returns the
logging fallback closure without invoking it, so `start()` resolves with
that function object — not with `undefined` — and no error log is emitted;
with the hook defined and returning 42, `start()` resolves with 42. -/
theorem start_missing_error_hook_no_log :
    start hFail { http := none, https := none } =
      ([BootEv.onInitCalled], Except.ok JsValue.functionObj) ∧
    (start hFail { http := none, https := none }).2 ≠
      Except.ok JsValue.undef ∧
    BootEv.errorLogged ∉ (start hFail { http := none, https := none }).1 ∧
    start hRecover { http := none, https := none } =
      ([BootEv.onInitCalled, BootEv.onServerInitErrorCalled],
        Except.ok (JsValue.value 42)) := by
  refine ⟨rfl, ?_, by decide, rfl⟩
  intro hc
  exact JsValue.noConfusion (Except.ok.inj hc)

end ServerLoaderModel
